import Mathlib

/-!
Shallow embedding of `src/api.py` (mfnf-statistic-2018): a MediaWiki client
with a session layer (`MediaWikiSession`) and an API facade (`MediaWikiAPI`).

Python JSON values are modelled by `JValue`; Python runtime exceptions by
`PyErr`; Python dictionaries of request parameters by association lists
(`Dict`).  The injected HTTP client (`req`) is modelled by explicit server
functions: `server : Dict → JValue` for the decoded JSON body of a GET to
`api.php` with the given parameters, and `pv : String → String → String →
JValue` for the decoded JSON body of the page-view REST endpoint at a given
(title, start, end).  In-place mutation of a parameter dictionary is modelled
by explicit state passing: functions that mutate `params` return the updated
dictionary alongside their result.
-/

/-- Python exceptions that the code in `api.py` can raise. -/
inductive PyErr where
  | keyError : String → PyErr
  | assertionError : PyErr
  | attributeError : String → PyErr
  | typeError : PyErr
  | valueError : PyErr
  deriving Repr, DecidableEq

/-- Decoded JSON values (the results of `.json()` in the code). -/
inductive JValue where
  | str : String → JValue
  | num : Int → JValue
  | obj : List (String × JValue) → JValue
  | arr : List JValue → JValue
  deriving Repr

/-- First-match lookup in an association list; JSON objects produced by
`json.loads` have unique keys, so this is a faithful model of `d[k]`. -/
def lookupD (o : List (String × JValue)) (k : String) : Option JValue :=
  match o with
  | [] => none
  | (k', v) :: rest => if k' = k then some v else lookupD rest k

/-- Python `j[k]` for a string key: `KeyError` if the key is absent,
`TypeError` if `j` is not a dictionary. -/
def getKey (j : JValue) (k : String) : Except PyErr JValue :=
  match j with
  | .obj o =>
    match lookupD o k with
    | some v => Except.ok v
    | none => Except.error (PyErr.keyError k)
  | _ => Except.error PyErr.typeError

/-- Python `select_singleton_list`: `assert len(lst) == 1; return lst[0]`. -/
def select_singleton_list (l : List JValue) : Except PyErr JValue :=
  match l with
  | [x] => Except.ok x
  | _ => Except.error PyErr.assertionError

/-- Python `select_singleton_dict`: `select_singleton_list(list(d.values()))`;
`.values()` on a non-dictionary raises `AttributeError`. -/
def select_singleton_dict (j : JValue) : Except PyErr JValue :=
  match j with
  | .obj o => select_singleton_list (o.map (fun p => p.2))
  | _ => Except.error (PyErr.attributeError "values")

/-- A step of a `query_json` path: either a string key or the one callable the
code ever puts in a path, `select_singleton_dict`. -/
inductive PathPart where
  | key : String → PathPart
  | singletonDict : PathPart

/-- Python `query_json(path, json)`: walk `path`, indexing by key or applying
the callable. -/
def query_json (path : List PathPart) (j : JValue) : Except PyErr JValue :=
  match path with
  | [] => Except.ok j
  | PathPart.key k :: rest =>
    match getKey j k with
    | Except.ok v => query_json rest v
    | Except.error e => Except.error e
  | PathPart.singletonDict :: rest =>
    match select_singleton_dict j with
    | Except.ok v => query_json rest v
    | Except.error e => Except.error e

/-- Request parameter dictionaries (`params` in the code). -/
abbrev Dict := List (String × JValue)

/-- Python `d[k] = v`: replace the value at `k` in place, or append the new
binding. -/
def dictSet (d : Dict) (k : String) (v : JValue) : Dict :=
  match d with
  | [] => [(k, v)]
  | (k', v') :: rest =>
    if k' = k then (k, v) :: rest else (k', v') :: dictSet rest k v

/-- Lookup in a parameter dictionary. -/
def dictGet (d : Dict) (k : String) : Option JValue :=
  lookupD d k

/-- Python `d.update(d2)`: set every binding of `d2` in `d`, left to right. -/
def dictUpdate (d d2 : Dict) : Dict :=
  d2.foldl (fun acc p => dictSet acc p.1 p.2) d

/-- Python `k in json` on a decoded JSON value.  In `api_query` this test is
only reached after `json["query"]` has succeeded, hence on a dictionary; the
other constructors cannot occur there. -/
def hasKeyJ (j : JValue) (k : String) : Bool :=
  match j with
  | .obj o => (lookupD o k).isSome
  | _ => false

/-- `MediaWikiSession.api_call(params)`: force `params["format"] = "json"`
(mutating the dictionary) and GET `api.php`; returns the mutated dictionary
together with the decoded JSON body. -/
def api_call (server : Dict → JValue) (params : Dict) : Dict × JValue :=
  let params' := dictSet params "format" (JValue.str "json")
  (params', server params')

/-- `MediaWikiSession.api_query(title, params, path)`: set
`params["action"] = "query"`, call `api_call`, extract `["query"] + path`.
When the response has a `"query-continue"` key the code merges the single
nested continuation dictionary into `params` and then evaluates `self.query`,
an attribute that does not exist on `MediaWikiSession` (the only methods are
`index_call`, `api_call`, `api_query` and `pageviews`), so an
`AttributeError` is raised after the merge.  The unused `title` argument of
the Python method is omitted. -/
def api_query (server : Dict → JValue) (params : Dict) (path : List PathPart) :
    Dict × Except PyErr JValue :=
  let params1 := dictSet params "action" (JValue.str "query")
  let (params2, json) := api_call server params1
  match query_json (PathPart.key "query" :: path) json with
  | Except.error e => (params2, Except.error e)
  | Except.ok result =>
    if hasKeyJ json "query-continue" then
      match query_json [PathPart.key "query-continue", PathPart.singletonDict] json with
      | Except.error e => (params2, Except.error e)
      | Except.ok cont =>
        match cont with
        | JValue.obj o =>
          (dictUpdate params2 o, Except.error (PyErr.attributeError "query"))
        | _ => (params2, Except.error PyErr.typeError)
    else (params2, Except.ok result)

/-- Python `int(x)` on a JSON value: integers pass through, strings are
parsed, anything else raises `TypeError`. -/
def pyInt (v : JValue) : Except PyErr Int :=
  match v with
  | .num n => Except.ok n
  | .str s =>
    match s.toInt? with
    | some n => Except.ok n
    | none => Except.error PyErr.valueError
  | _ => Except.error PyErr.typeError

/-- The generator `(int(x["views"]) for x in items)` summed left to right. -/
def sumViews (items : List JValue) : Except PyErr Int :=
  match items with
  | [] => Except.ok 0
  | x :: rest =>
    match getKey x "views" with
    | Except.error e => Except.error e
    | Except.ok v =>
      match pyInt v with
      | Except.error e => Except.error e
      | Except.ok n =>
        match sumViews rest with
        | Except.error e => Except.error e
        | Except.ok m => Except.ok (n + m)

/-- `MediaWikiSession.pageviews(title, start, end)`: GET the Wikimedia REST
page-view endpoint for `title` in `[start, end]`; if the decoded body has an
`"items"` key, sum `int(x["views"])` over the items, otherwise return 0.
The `pv` function stands for the remote endpoint (the URL is determined by
domain, title, start and end, of which the domain is fixed per session). -/
def session_pageviews (pv : String → String → String → JValue)
    (title start_ end_ : String) : Except PyErr Int :=
  let result := pv title start_ end_
  match result with
  | .obj o =>
    match lookupD o "items" with
    | some items =>
      match items with
      | .arr xs => sumViews xs
      | _ => Except.error PyErr.typeError
    | none => Except.ok 0
  | .arr xs =>
    if xs.any (fun v => match v with | .str s => s = "items" | _ => false) then
      Except.error PyErr.typeError
    else Except.ok 0
  | .str s =>
    if ((List.range (s.length + 1)).any
        (fun i => (s.data.drop i).take 5 == "items".data)) then
      Except.error PyErr.typeError
    else Except.ok 0
  | .num _ => Except.error PyErr.typeError

/-- The parameter dictionary built by `MediaWikiAPI.revisions(title)`. -/
def revParams (title : String) : Dict :=
  [("titles", JValue.str title),
   ("prop", JValue.str "revisions"),
   ("rvprop", JValue.str "timestamp|user|size|comment"),
   ("rvlimit", JValue.str "max")]

/-- The extraction path used by `revisions`:
`["pages", select_singleton_dict, "revisions"]`. -/
def revPath : List PathPart :=
  [PathPart.key "pages", PathPart.singletonDict, PathPart.key "revisions"]

/-- `MediaWikiAPI.revisions(title)`: run the query and convert a `KeyError`
into the empty list; every other outcome passes through. -/
def revisions (server : Dict → JValue) (title : String) : Except PyErr JValue :=
  match (api_query server (revParams title) revPath).2 with
  | Except.error (PyErr.keyError _) => Except.ok (JValue.arr [])
  | r => r

/-- Python `for x in v`: JSON arrays yield their elements, dictionaries their
keys, strings their characters; numbers are not iterable. -/
def iterJ (v : JValue) : Except PyErr (List JValue) :=
  match v with
  | .arr xs => Except.ok xs
  | .obj o => Except.ok (o.map (fun p => JValue.str p.1))
  | .str s => Except.ok (s.data.map (fun c => JValue.str (String.mk [c])))
  | .num _ => Except.error PyErr.typeError

/-- Python `a < b` on strings: lexicographic comparison of the code-point
sequences. -/
def pyStrLtL (a b : List Char) : Bool :=
  match a, b with
  | [], [] => false
  | [], _ :: _ => true
  | _ :: _, [] => false
  | c :: cs, d :: ds =>
    if c.toNat < d.toNat then true
    else if d.toNat < c.toNat then false
    else pyStrLtL cs ds

/-- Python `a < b` on `String`. -/
def pyStrLt (a b : String) : Bool :=
  pyStrLtL a.data b.data

/-- Python `a <= b` on `String` (total order: `a <= b` iff not `b < a`). -/
def pyStrLe (a b : String) : Bool :=
  !(pyStrLt b a)

/-- The body of the `revisions_count` list comprehension: evaluate
`x["timestamp"] >= start and x["timestamp"] < end` for one revision record;
comparing a non-string timestamp with a string raises `TypeError`. -/
def tsInRange (x : JValue) (start_ end_ : String) : Except PyErr Bool :=
  match getKey x "timestamp" with
  | Except.error e => Except.error e
  | Except.ok (JValue.str t) =>
    Except.ok (pyStrLe start_ t && pyStrLt t end_)
  | Except.ok _ => Except.error PyErr.typeError

/-- Count the revisions in the window, left to right. -/
def countInRange (xs : List JValue) (start_ end_ : String) : Except PyErr Nat :=
  match xs with
  | [] => Except.ok 0
  | x :: rest =>
    match tsInRange x start_ end_ with
    | Except.error e => Except.error e
    | Except.ok b =>
      match countInRange rest start_ end_ with
      | Except.error e => Except.error e
      | Except.ok n => Except.ok (if b then n + 1 else n)

/-- `MediaWikiAPI.revisions_count(title, start, end)`. -/
def revisions_count (server : Dict → JValue) (title start_ end_ : String) :
    Except PyErr Nat :=
  match revisions server title with
  | Except.error e => Except.error e
  | Except.ok v =>
    match iterJ v with
    | Except.error e => Except.error e
    | Except.ok xs => countInRange xs start_ end_

/-- Strip a literal off the front of a character list (one regex literal
step); `none` when the literal does not match there. -/
def dropLit (lit s : List Char) : Option (List Char) :=
  match lit, s with
  | [], s => some s
  | _ :: _, [] => none
  | l :: ls, c :: cs => if l = c then dropLit ls cs else none

/-- Match `L1 ([^\]]+) L2 ([^\]]+) L3` at the current position.  Both
patterns in the code continue with a literal starting in `]` after each
group, so the greedy `[^\]]+` can only succeed with its maximal run: any
shorter run leaves a character other than `]` where the literal demands
`]`.  The trailing `.*` of the patterns constrains nothing because
`re.match` does not anchor at the end of the string. -/
def matchAt (L1 L2 L3 s : List Char) : Option (List Char × List Char) :=
  (dropLit L1 s).bind (fun s1 =>
    let g1 := s1.takeWhile (fun c => c ≠ ']')
    if g1.isEmpty then none
    else
      (dropLit L2 (s1.drop g1.length)).bind (fun s2 =>
        let g2 := s2.takeWhile (fun c => c ≠ ']')
        if g2.isEmpty then none
        else (dropLit L3 (s2.drop g2.length)).map (fun _ => (g1, g2))))

/-- Length of the longest newline-free prefix: the furthest the leading
greedy `.*` (which does not match a newline) can reach. -/
def nlBound (s : List Char) : Nat :=
  (s.takeWhile (fun c => c ≠ '\n')).length

/-- Python `re.match` of `.* L1 ([^\]]+) L2 ([^\]]+) L3 .*` against `s`:
the leading greedy `.*` tries the longest feasible newline-free prefix
first and backtracks one character at a time, so the match position is the
largest `i ≤ nlBound s` at which `matchAt` succeeds. -/
def pyMatch (L1 L2 L3 s : List Char) : Option (List Char × List Char) :=
  ((List.range (nlBound s + 1)).reverse).findSome?
    (fun i => matchAt L1 L2 L3 (s.drop i))

/-- Literals of the first pattern,
`.*verschob die Seite \[\[([^\]]+)\]\] nach \[\[([^\]]+)\]\].*`. -/
def re1L1 : List Char := "verschob die Seite [[".data
def re1L2 : List Char := "]] nach [[".data
def re1L3 : List Char := "]]".data

/-- Literals of the second pattern,
`.*hat „\[\[([^\]]+)\]\]“ nach „\[\[([^\]]+)\]\]“ verschoben.*`. -/
def re2L1 : List Char := "hat „[[".data
def re2L2 : List Char := "]]“ nach „[[".data
def re2L3 : List Char := "]]“ verschoben".data

/-- `regs[0].match(comment)` with its two captured groups. -/
def re1Match (s : List Char) : Option (List Char × List Char) :=
  pyMatch re1L1 re1L2 re1L3 s

/-- `regs[1].match(comment)` with its two captured groups. -/
def re2Match (s : List Char) : Option (List Char × List Char) :=
  pyMatch re2L1 re2L2 re2L3 s

/-- Python `set.add`: Python sets are modelled as duplicate-free lists in
insertion order (sums and membership, the only uses, do not depend on the
iteration order of a Python set). -/
def setAdd (s : List String) (x : String) : List String :=
  if x ∈ s then s else s ++ [x]

/-- The inner `for reg in regs` loop of `all_titles` for one comment: both
patterns are tried (there is no break), and each match adds its two groups
to the result set. -/
def processComment (acc : List String) (c : String) : List String :=
  let acc1 :=
    match re1Match c.data with
    | some (a, b) => setAdd (setAdd acc (String.mk a)) (String.mk b)
    | none => acc
  match re2Match c.data with
  | some (a, b) => setAdd (setAdd acc1 (String.mk a)) (String.mk b)
  | none => acc1

/-- The comment of one revision record, as `all_titles` computes it:
`comment = x.get("comment", "")`, replaced by `x["commenthidden"]` when the
`"comment"` key is absent (`KeyError` when that key is absent too).  A
non-string comment value raises `TypeError` when handed to `reg.match`;
`x.get` on a non-dictionary raises `AttributeError`. -/
def getComment (x : JValue) : Except PyErr String :=
  match x with
  | .obj o =>
    match lookupD o "comment" with
    | some (JValue.str s) => Except.ok s
    | some _ => Except.error PyErr.typeError
    | none =>
      match lookupD o "commenthidden" with
      | some (JValue.str s) => Except.ok s
      | some _ => Except.error PyErr.typeError
      | none => Except.error (PyErr.keyError "commenthidden")
  | _ => Except.error (PyErr.attributeError "get")

/-- The `for x in self.revisions(title)` loop of `all_titles`. -/
def allTitlesLoop (xs : List JValue) (acc : List String) :
    Except PyErr (List String) :=
  match xs with
  | [] => Except.ok acc
  | x :: rest =>
    match getComment x with
    | Except.error e => Except.error e
    | Except.ok c => allTitlesLoop rest (processComment acc c)

/-- `MediaWikiAPI.all_titles(title)`: seed the result set with `title`,
then scan every revision comment with both move-log patterns. -/
def all_titles (server : Dict → JValue) (title : String) :
    Except PyErr (List String) :=
  match revisions server title with
  | Except.error e => Except.error e
  | Except.ok v =>
    match iterJ v with
    | Except.error e => Except.error e
    | Except.ok xs => allTitlesLoop xs [title]

/-- The generator `(self.session.pageviews(x, start, end) for x in
self.all_titles(title))` summed left to right. -/
def sumSessionPageviews (pv : String → String → String → JValue)
    (ts : List String) (start_ end_ : String) : Except PyErr Int :=
  match ts with
  | [] => Except.ok 0
  | t :: rest =>
    match session_pageviews pv t start_ end_ with
    | Except.error e => Except.error e
    | Except.ok n =>
      match sumSessionPageviews pv rest start_ end_ with
      | Except.error e => Except.error e
      | Except.ok m => Except.ok (n + m)

/-- `MediaWikiAPI.pageviews(title, start, end)`: sum the per-title session
page views over every historical title of the article. -/
def api_pageviews (server : Dict → JValue)
    (pv : String → String → String → JValue)
    (title start_ end_ : String) : Except PyErr Int :=
  match all_titles server title with
  | Except.error e => Except.error e
  | Except.ok ts => sumSessionPageviews pv ts start_ end_

/-- The parameter dictionary as mutated by `api_query` and `api_call`:
`params["action"] = "query"` followed by `params["format"] = "json"`. -/
def mutParams (params : Dict) : Dict :=
  dictSet (dictSet params "action" (JValue.str "query")) "format" (JValue.str "json")

/-- The parameter dictionary sent to the server by `revisions(title)`. -/
def fullRevParams (title : String) : Dict :=
  mutParams (revParams title)

/-- An `action=query` response with a single page object keyed by the page
id `pid`. -/
def mkPageResp (pid : String) (page : List (String × JValue)) : JValue :=
  JValue.obj [("query", JValue.obj [("pages", JValue.obj [(pid, JValue.obj page)])])]

/-- An `action=query` response whose single page carries the revision list
`xs`. -/
def mkRevResp (pid : String) (xs : List JValue) : JValue :=
  mkPageResp pid [("revisions", JValue.arr xs)]

/-- A revision record carrying only a timestamp. -/
def mkTsRev (t : String) : JValue :=
  JValue.obj [("timestamp", JValue.str t)]

lemma revisions_resp (server : Dict → JValue) (pid title : String)
    (xs : List JValue) (h : server (fullRevParams title) = mkRevResp pid xs) :
    revisions server title = Except.ok (JValue.arr xs) := by
  unfold fullRevParams mutParams at h
  simp only [revisions, api_query, api_call]
  rw [h]
  rfl

lemma query_json_revPath (pid : String) (page : List (String × JValue)) :
    query_json (PathPart.key "query" :: revPath) (mkPageResp pid page) =
      (match lookupD page "revisions" with
       | some v => Except.ok v
       | none => Except.error (PyErr.keyError "revisions")) := by
  cases h : lookupD page "revisions" with
  | none =>
    simp [query_json, revPath, mkPageResp, getKey, select_singleton_dict,
      select_singleton_list, lookupD, h]
  | some v =>
    simp [query_json, revPath, mkPageResp, getKey, select_singleton_dict,
      select_singleton_list, lookupD, h]

/-- C3: when the single page object of the API response has no
`"revisions"` key, the underlying `api_query` fails with that `KeyError`,
and `revisions(title)` converts exactly this failure into the empty
sequence. -/
theorem C3_missing_revisions_key_yields_empty (server : Dict → JValue)
    (pid title : String) (page : List (String × JValue))
    (h : server (fullRevParams title) = mkPageResp pid page)
    (hnone : lookupD page "revisions" = none) :
    (api_query server (revParams title) revPath).2
        = Except.error (PyErr.keyError "revisions")
      ∧ revisions server title = Except.ok (JValue.arr []) := by
  unfold fullRevParams mutParams at h
  constructor
  · simp only [api_query, api_call]
    rw [h, query_json_revPath, hnone]
  · simp only [revisions, api_query, api_call]
    rw [h, query_json_revPath, hnone]

/-- C3 witness: a concrete nonexistent-page response (`missing` marker, no
`revisions` key) makes `revisions` return the empty sequence. -/
theorem C3_witness :
    (api_query (fun _ => mkPageResp "-1" [("missing", JValue.str "")])
        (revParams "Nosuch") revPath).2
        = Except.error (PyErr.keyError "revisions")
      ∧ revisions (fun _ => mkPageResp "-1" [("missing", JValue.str "")]) "Nosuch"
        = Except.ok (JValue.arr []) :=
  C3_missing_revisions_key_yields_empty
    (fun _ => mkPageResp "-1" [("missing", JValue.str "")])
    "-1" "Nosuch" [("missing", JValue.str "")] rfl rfl

lemma ok_ite_add (b : Bool) (n : Nat) :
    (Except.ok (if b then n + 1 else n) : Except PyErr Nat)
      = Except.ok (n + if b then 1 else 0) := by
  cases b <;> simp

lemma countInRange_map (ts : List String) (s e : String) :
    countInRange (ts.map mkTsRev) s e =
      Except.ok (ts.countP (fun t => pyStrLe s t && pyStrLt t e)) := by
  induction ts with
  | nil => rfl
  | cons t rest ih =>
    have h1 : tsInRange (mkTsRev t) s e
        = Except.ok (pyStrLe s t && pyStrLt t e) := rfl
    simp only [List.map_cons, countInRange, h1, ih, List.countP_cons]
    exact ok_ite_add _ _

/-- C4: `revisions_count(title, start, end)` counts exactly the revisions
whose timestamp `t` satisfies `start ≤ t < end` under lexicographic string
comparison (`pyStrLe`/`pyStrLt`, Python string order by code points). -/
theorem C4_revisions_count_window (server : Dict → JValue)
    (pid title : String) (ts : List String) (s e : String)
    (h : server (fullRevParams title) = mkRevResp pid (ts.map mkTsRev)) :
    revisions_count server title s e =
      Except.ok (ts.countP (fun t => pyStrLe s t && pyStrLt t e)) := by
  have hrev := revisions_resp server pid title (ts.map mkTsRev) h
  simp only [revisions_count, hrev, iterJ, countInRange_map]

/-- C4 witness: timestamps 20200101, 20200601, 20201231 with the window
[20200101, 20201231) give a count of 2. -/
theorem C4_witness :
    revisions_count
      (fun _ => mkRevResp "1" (["20200101", "20200601", "20201231"].map mkTsRev))
      "T" "20200101" "20201231" = Except.ok 2 := by
  have h := C4_revisions_count_window
    (fun _ => mkRevResp "1" (["20200101", "20200601", "20201231"].map mkTsRev))
    "1" "T" ["20200101", "20200601", "20201231"] "20200101" "20201231" rfl
  rw [h]
  rfl

lemma hasKeyJ_of_getKey (j : JValue) (k : String) (v : JValue)
    (h : getKey j k = Except.ok v) : hasKeyJ j k = true := by
  cases j with
  | obj o =>
    cases hl : lookupD o k with
    | none => simp [getKey, hl] at h
    | some w => simp [hasKeyJ, hl]
  | str s => simp [getKey] at h
  | num n => simp [getKey] at h
  | arr xs => simp [getKey] at h

lemma query_json_key_ok (k : String) (rest : List PathPart) (j v : JValue)
    (h : query_json (PathPart.key k :: rest) j = Except.ok v) :
    ∃ w, getKey j k = Except.ok w := by
  unfold query_json at h
  cases hg : getKey j k with
  | ok w => exact ⟨w, rfl⟩
  | error e => rw [hg] at h; exact absurd h (by simp)

/-- C1: code bug.  When the first response carries a `"query-continue"` key
with a single nested parameter object, `api_query` does not issue a second
request and concatenate the two extracted sequences: after merging the
continuation parameters it evaluates `self.query`, an attribute that
`MediaWikiSession` does not have, and raises `AttributeError`. -/
theorem C1_api_query_continuation_raises (server : Dict → JValue)
    (params : Dict) (path : List PathPart) (r : JValue)
    (o : List (String × JValue))
    (h1 : query_json (PathPart.key "query" :: path) (server (mutParams params))
      = Except.ok r)
    (h2 : query_json [PathPart.key "query-continue", PathPart.singletonDict]
      (server (mutParams params)) = Except.ok (JValue.obj o)) :
    (api_query server params path).2
      = Except.error (PyErr.attributeError "query") := by
  unfold mutParams at h1 h2
  obtain ⟨w, hw⟩ := query_json_key_ok _ _ _ _ h2
  have hk := hasKeyJ_of_getKey _ _ _ hw
  simp only [api_query, api_call]
  rw [h1]
  simp only [hk, if_true]
  rw [h2]

/-- C1 witness: a concrete continuing response makes `api_query` raise
`AttributeError` instead of returning a concatenation. -/
theorem C1_witness :
    (api_query
      (fun _ => JValue.obj
        [("query", JValue.obj [("allpages", JValue.arr [JValue.str "P1"])]),
         ("query-continue",
          JValue.obj [("allpages", JValue.obj [("apcontinue", JValue.str "P2")])])])
      [] [PathPart.key "allpages"]).2
      = Except.error (PyErr.attributeError "query") :=
  C1_api_query_continuation_raises
    (fun _ => JValue.obj
      [("query", JValue.obj [("allpages", JValue.arr [JValue.str "P1"])]),
       ("query-continue",
        JValue.obj [("allpages", JValue.obj [("apcontinue", JValue.str "P2")])])])
    [] [PathPart.key "allpages"] (JValue.arr [JValue.str "P1"])
    [("apcontinue", JValue.str "P2")] rfl rfl

/-- C9: `api_call` mutates the caller's parameter dictionary by setting
`format` to `json`; `api_query` additionally sets `action` to `query` and,
when the response continues, merges the continuation parameters into the
same dictionary (mutation is modelled by the returned dictionary). -/
theorem C9_params_mutated_in_place (server : Dict → JValue) (params : Dict)
    (path : List PathPart) :
    (api_call server params).1 = dictSet params "format" (JValue.str "json")
  ∧ (hasKeyJ (server (mutParams params)) "query-continue" = false →
      (api_query server params path).1 = mutParams params)
  ∧ (∀ r o,
      query_json (PathPart.key "query" :: path) (server (mutParams params))
        = Except.ok r →
      query_json [PathPart.key "query-continue", PathPart.singletonDict]
        (server (mutParams params)) = Except.ok (JValue.obj o) →
      (api_query server params path).1 = dictUpdate (mutParams params) o) := by
  refine ⟨rfl, ?_, ?_⟩
  · intro hfalse
    unfold mutParams at hfalse ⊢
    simp only [api_query, api_call]
    cases hq : query_json (PathPart.key "query" :: path)
        (server (dictSet (dictSet params "action" (JValue.str "query"))
          "format" (JValue.str "json"))) with
    | error e => rfl
    | ok r => simp [hfalse]
  · intro r o h1 h2
    unfold mutParams at h1 h2 ⊢
    obtain ⟨w, hw⟩ := query_json_key_ok _ _ _ _ h2
    have hk := hasKeyJ_of_getKey _ _ _ hw
    simp only [api_query, api_call]
    rw [h1]
    simp only [hk, if_true]
    rw [h2]

/-- C9 witness: with a continuing response, the dictionary passed by the
caller ends up holding `action`, `format` and the merged continuation
parameter. -/
theorem C9_witness :
    (api_query
      (fun _ => JValue.obj
        [("query", JValue.obj [("allpages", JValue.arr [JValue.str "P1"])]),
         ("query-continue",
          JValue.obj [("allpages", JValue.obj [("apcontinue", JValue.str "P2")])])])
      [("apfrom", JValue.str "A")] [PathPart.key "allpages"]).1
      = [("apfrom", JValue.str "A"), ("action", JValue.str "query"),
         ("format", JValue.str "json"), ("apcontinue", JValue.str "P2")] :=
  (C9_params_mutated_in_place
    (fun _ => JValue.obj
      [("query", JValue.obj [("allpages", JValue.arr [JValue.str "P1"])]),
       ("query-continue",
        JValue.obj [("allpages", JValue.obj [("apcontinue", JValue.str "P2")])])])
    [("apfrom", JValue.str "A")] [PathPart.key "allpages"]).2.2
    (JValue.arr [JValue.str "P1"]) [("apcontinue", JValue.str "P2")] rfl rfl

/-- An item of the page-view response carrying an integer `views` field. -/
def mkViewsItem (n : Int) : JValue :=
  JValue.obj [("views", JValue.num n)]

lemma sumViews_map (vs : List Int) :
    sumViews (vs.map mkViewsItem) = Except.ok vs.sum := by
  induction vs with
  | nil => rfl
  | cons n rest ih =>
    simp only [List.map_cons, sumViews, mkViewsItem, getKey, lookupD, pyInt, ih,
      List.sum_cons]
    rfl

/-- C8: the session's `pageviews` returns 0 when the endpoint response has
no `items` key, and the sum of the integer `views` fields when it does. -/
theorem C8_session_pageviews_items (pv : String → String → String → JValue)
    (title start_ end_ : String) (o : List (String × JValue))
    (hpv : pv title start_ end_ = JValue.obj o) :
    (lookupD o "items" = none →
      session_pageviews pv title start_ end_ = Except.ok 0)
  ∧ (∀ vs : List Int,
      lookupD o "items" = some (JValue.arr (vs.map mkViewsItem)) →
      session_pageviews pv title start_ end_ = Except.ok vs.sum) := by
  constructor
  · intro hnone
    simp only [session_pageviews, hpv, hnone]
  · intro vs hsome
    simp only [session_pageviews, hpv, hsome, sumViews_map]

/-- C8 witness: a response without `items` gives 0; one with items of 3 and
4 views gives 7. -/
theorem C8_witness :
    session_pageviews (fun _ _ _ => JValue.obj [("type", JValue.str "404")])
      "T" "20180101" "20180201" = Except.ok 0
  ∧ session_pageviews
      (fun _ _ _ => JValue.obj
        [("items", JValue.arr ([3, 4].map mkViewsItem))])
      "T" "20180101" "20180201" = Except.ok 7 := by
  constructor
  · exact (C8_session_pageviews_items
      (fun _ _ _ => JValue.obj [("type", JValue.str "404")])
      "T" "20180101" "20180201" [("type", JValue.str "404")] rfl).1 rfl
  · have h := (C8_session_pageviews_items
      (fun _ _ _ => JValue.obj [("items", JValue.arr ([3, 4].map mkViewsItem))])
      "T" "20180101" "20180201"
      [("items", JValue.arr ([3, 4].map mkViewsItem))] rfl).2 [3, 4] rfl
    rw [h]
    rfl

lemma sumSessionPageviews_map (pv : String → String → String → JValue)
    (ts : List String) (start_ end_ : String) (f : String → Int)
    (h : ∀ t ∈ ts, session_pageviews pv t start_ end_ = Except.ok (f t)) :
    sumSessionPageviews pv ts start_ end_ = Except.ok (ts.map f).sum := by
  induction ts with
  | nil => rfl
  | cons t rest ih =>
    have ht := h t (List.mem_cons_self t rest)
    have hrest := ih (fun y hy => h y (List.mem_cons_of_mem t hy))
    simp only [sumSessionPageviews, ht, hrest, List.map_cons, List.sum_cons]

/-- C5: the facade's `pageviews(title, start, end)` is the sum of the
session's `pageviews(t, start, end)` over every historical title `t` in
`all_titles(title)`. -/
theorem C5_pageviews_sums_over_titles (server : Dict → JValue)
    (pv : String → String → String → JValue)
    (title start_ end_ : String) (ts : List String) (f : String → Int)
    (hts : all_titles server title = Except.ok ts)
    (hpv : ∀ t ∈ ts, session_pageviews pv t start_ end_ = Except.ok (f t)) :
    api_pageviews server pv title start_ end_ = Except.ok (ts.map f).sum := by
  simp only [api_pageviews, hts, sumSessionPageviews_map pv ts start_ end_ f hpv]

/-- A server whose one revision records the move of `Alt` to `T`, so the
article has the two historical titles `T` and `Alt`. -/
def demoMoveServer : Dict → JValue := fun _ =>
  mkRevResp "42"
    [JValue.obj [("comment", JValue.str "verschob die Seite [[Alt]] nach [[T]]")]]

/-- A page-view endpoint returning 5 views for `T` and 7 for any other
title. -/
def demoPv : String → String → String → JValue := fun t _ _ =>
  if t = "T" then JValue.obj [("items", JValue.arr [mkViewsItem 5])]
  else JValue.obj [("items", JValue.arr [mkViewsItem 7])]

/-- C5 witness: two historical titles with individual totals 5 and 7 give a
facade total of 12. -/
theorem C5_witness :
    api_pageviews demoMoveServer demoPv "T" "20180101" "20180201"
      = Except.ok 12 := by
  have h := C5_pageviews_sums_over_titles demoMoveServer demoPv
    "T" "20180101" "20180201" ["T", "Alt"]
    (fun t => if t = "T" then 5 else 7) rfl
    (by intro t ht; fin_cases ht <;> rfl)
  rw [h]
  rfl

lemma mem_setAdd_self (s : List String) (x : String) : x ∈ setAdd s x := by
  unfold setAdd
  by_cases h : x ∈ s
  · simp [h]
  · simp [h]

lemma mem_setAdd_of_mem {s : List String} {y : String} (x : String)
    (h : y ∈ s) : y ∈ setAdd s x := by
  unfold setAdd
  by_cases hx : x ∈ s
  · simpa [hx]
  · simp [hx, List.mem_append]
    exact Or.inl h

lemma mem_processComment_of_mem {acc : List String} {y : String} {c : String}
    (h : y ∈ acc) : y ∈ processComment acc c := by
  unfold processComment
  cases h1 : re1Match c.data with
  | none =>
    cases h2 : re2Match c.data with
    | none => simpa using h
    | some p => exact mem_setAdd_of_mem _ (mem_setAdd_of_mem _ h)
  | some p =>
    cases h2 : re2Match c.data with
    | none => exact mem_setAdd_of_mem _ (mem_setAdd_of_mem _ h)
    | some q =>
      exact mem_setAdd_of_mem _ (mem_setAdd_of_mem _
        (mem_setAdd_of_mem _ (mem_setAdd_of_mem _ h)))

lemma re1_mem_processComment {acc : List String} {c : String}
    {a b : List Char} (h : re1Match c.data = some (a, b)) :
    String.mk a ∈ processComment acc c ∧ String.mk b ∈ processComment acc c := by
  unfold processComment
  rw [h]
  cases h2 : re2Match c.data with
  | none =>
    exact ⟨mem_setAdd_of_mem _ (mem_setAdd_self _ _), mem_setAdd_self _ _⟩
  | some q =>
    exact ⟨mem_setAdd_of_mem _ (mem_setAdd_of_mem _
        (mem_setAdd_of_mem _ (mem_setAdd_self _ _))),
      mem_setAdd_of_mem _ (mem_setAdd_of_mem _ (mem_setAdd_self _ _))⟩

lemma re2_mem_processComment {acc : List String} {c : String}
    {a b : List Char} (h : re2Match c.data = some (a, b)) :
    String.mk a ∈ processComment acc c ∧ String.mk b ∈ processComment acc c := by
  unfold processComment
  rw [h]
  cases h1 : re1Match c.data with
  | none => exact ⟨mem_setAdd_of_mem _ (mem_setAdd_self _ _), mem_setAdd_self _ _⟩
  | some p => exact ⟨mem_setAdd_of_mem _ (mem_setAdd_self _ _), mem_setAdd_self _ _⟩

lemma allTitlesLoop_mem {xs : List JValue} {acc s : List String} {y : String}
    (h : allTitlesLoop xs acc = Except.ok s) (hy : y ∈ acc) : y ∈ s := by
  induction xs generalizing acc with
  | nil =>
    unfold allTitlesLoop at h
    cases h
    exact hy
  | cons x rest ih =>
    unfold allTitlesLoop at h
    cases hc : getComment x with
    | error e => rw [hc] at h; cases h
    | ok c =>
      rw [hc] at h
      exact ih h (mem_processComment_of_mem hy)

lemma allTitlesLoop_ok {xs : List JValue} (acc : List String)
    (h : ∀ x ∈ xs, ∃ c, getComment x = Except.ok c) :
    ∃ s, allTitlesLoop xs acc = Except.ok s := by
  induction xs generalizing acc with
  | nil => exact ⟨acc, rfl⟩
  | cons x rest ih =>
    obtain ⟨c, hc⟩ := h x (List.mem_cons_self x rest)
    obtain ⟨s, hs⟩ := ih (processComment acc c)
      (fun y hy => h y (List.mem_cons_of_mem x hy))
    refine ⟨s, ?_⟩
    unfold allTitlesLoop
    rw [hc]
    exact hs

lemma allTitlesLoop_captures {xs : List JValue} {acc s : List String}
    {x : JValue} {c : String} {a b : List Char}
    (h : allTitlesLoop xs acc = Except.ok s) (hx : x ∈ xs)
    (hc : getComment x = Except.ok c)
    (hm : re1Match c.data = some (a, b) ∨ re2Match c.data = some (a, b)) :
    String.mk a ∈ s ∧ String.mk b ∈ s := by
  induction xs generalizing acc with
  | nil => cases hx
  | cons x0 rest ih =>
    unfold allTitlesLoop at h
    cases hc0 : getComment x0 with
    | error e => rw [hc0] at h; cases h
    | ok c0 =>
      rw [hc0] at h
      rcases List.mem_cons.mp hx with hx0 | hxr
      · subst hx0
        rw [hc] at hc0
        cases hc0
        have hmem : String.mk a ∈ processComment acc c
            ∧ String.mk b ∈ processComment acc c := by
          rcases hm with hm | hm
          · exact re1_mem_processComment hm
          · exact re2_mem_processComment hm
        exact ⟨allTitlesLoop_mem h hmem.1, allTitlesLoop_mem h hmem.2⟩
      · exact ih h hxr

/-- C6: whenever `all_titles(title)` returns a result set, that set
contains `title` itself (the set is seeded with `title` before any
revision is scanned, so this also covers articles with zero revisions). -/
theorem C6_all_titles_contains_title (server : Dict → JValue)
    (title : String) (s : List String)
    (h : all_titles server title = Except.ok s) : title ∈ s := by
  unfold all_titles at h
  cases hr : revisions server title with
  | error e => rw [hr] at h; cases h
  | ok v =>
    rw [hr] at h
    replace h : (match iterJ v with
      | Except.error e => Except.error e
      | Except.ok xs => allTitlesLoop xs [title]) = Except.ok s := h
    cases hi : iterJ v with
    | error e => rw [hi] at h; cases h
    | ok xs =>
      rw [hi] at h
      exact allTitlesLoop_mem h (List.mem_singleton.mpr rfl)

/-- C6 witness: an article with zero revisions still yields a set
containing its own title. -/
theorem C6_witness :
    all_titles (fun _ => mkRevResp "1" []) "Analysis" = Except.ok ["Analysis"]
  ∧ "Analysis" ∈ ["Analysis"] :=
  ⟨rfl, C6_all_titles_contains_title (fun _ => mkRevResp "1" []) "Analysis"
    ["Analysis"] rfl⟩

/-- C7: when a revision comment matches one of the two move-log patterns
with captured wiki-link targets `a` and `b`, both captured titles are in
the set returned by `all_titles`. -/
theorem C7_captures_added_to_all_titles (server : Dict → JValue)
    (pid title : String) (xs : List JValue) (x : JValue) (c : String)
    (a b : List Char)
    (hserver : server (fullRevParams title) = mkRevResp pid xs)
    (hall : ∀ y ∈ xs, ∃ cy, getComment y = Except.ok cy)
    (hx : x ∈ xs) (hc : getComment x = Except.ok c)
    (hm : re1Match c.data = some (a, b) ∨ re2Match c.data = some (a, b)) :
    ∃ s, all_titles server title = Except.ok s
      ∧ String.mk a ∈ s ∧ String.mk b ∈ s := by
  have hrev := revisions_resp server pid title xs hserver
  obtain ⟨s, hs⟩ := allTitlesLoop_ok [title] hall
  have hat : all_titles server title = Except.ok s := by
    unfold all_titles
    rw [hrev]
    exact hs
  have hcap := allTitlesLoop_captures hs hx hc hm
  exact ⟨s, hat, hcap.1, hcap.2⟩

/-- C7 witness: the comment `verschob die Seite [[Alt]] nach [[T]]`, an
exact match of the first pattern, puts both `Alt` and `T` into the set. -/
theorem C7_witness :
    ∃ s, all_titles demoMoveServer "T" = Except.ok s
      ∧ "Alt" ∈ s ∧ "T" ∈ s :=
  C7_captures_added_to_all_titles demoMoveServer "42" "T"
    [JValue.obj [("comment", JValue.str "verschob die Seite [[Alt]] nach [[T]]")]]
    (JValue.obj [("comment", JValue.str "verschob die Seite [[Alt]] nach [[T]]")])
    "verschob die Seite [[Alt]] nach [[T]]" "Alt".data "T".data rfl
    (by
      intro y hy
      rw [List.mem_singleton] at hy
      subst hy
      exact ⟨"verschob die Seite [[Alt]] nach [[T]]", rfl⟩)
    (List.mem_singleton.mpr rfl) rfl (Or.inl rfl)

lemma allTitlesLoop_firstError {ys : List JValue} {x : JValue}
    {zs : List JValue} {acc : List String} {e : PyErr}
    (hok : ∀ y ∈ ys, ∃ c, getComment y = Except.ok c)
    (hx : getComment x = Except.error e) :
    allTitlesLoop (ys ++ x :: zs) acc = Except.error e := by
  induction ys generalizing acc with
  | nil =>
    show allTitlesLoop (x :: zs) acc = Except.error e
    unfold allTitlesLoop
    rw [hx]
  | cons y rest ih =>
    obtain ⟨c, hc⟩ := hok y (List.mem_cons_self y rest)
    show allTitlesLoop (y :: (rest ++ x :: zs)) acc = Except.error e
    unfold allTitlesLoop
    rw [hc]
    exact ih (fun z hz => hok z (List.mem_cons_of_mem y hz))

lemma allTitlesLoop_ok_implies {xs : List JValue} {acc s : List String}
    (h : allTitlesLoop xs acc = Except.ok s) :
    ∀ x ∈ xs, ∃ c, getComment x = Except.ok c := by
  induction xs generalizing acc with
  | nil => intro x hx; cases hx
  | cons x0 rest ih =>
    unfold allTitlesLoop at h
    cases hc : getComment x0 with
    | error e => rw [hc] at h; cases h
    | ok c =>
      rw [hc] at h
      intro x hx
      rcases List.mem_cons.mp hx with hx0 | hxr
      · exact ⟨c, hx0 ▸ hc⟩
      · exact ih h x hxr

lemma getComment_ok_has_key {x : JValue} {c : String}
    (h : getComment x = Except.ok c) :
    ∃ o, x = JValue.obj o
      ∧ ((lookupD o "comment").isSome ∨ (lookupD o "commenthidden").isSome) := by
  cases x with
  | obj o =>
    refine ⟨o, rfl, ?_⟩
    unfold getComment at h
    replace h : (match lookupD o "comment" with
      | some (JValue.str s) => Except.ok s
      | some _ => Except.error PyErr.typeError
      | none =>
        match lookupD o "commenthidden" with
        | some (JValue.str s) => Except.ok s
        | some _ => Except.error PyErr.typeError
        | none => Except.error (PyErr.keyError "commenthidden")) = Except.ok c := h
    cases h1 : lookupD o "comment" with
    | some v => exact Or.inl rfl
    | none =>
      rw [h1] at h
      cases h2 : lookupD o "commenthidden" with
      | some v => exact Or.inr rfl
      | none => rw [h2] at h; cases h
  | str s => cases h
  | num n => cases h
  | arr xs => cases h

/-- C10: a revision record with neither a `comment` nor a `commenthidden`
key makes `all_titles` raise the `KeyError` of the `commenthidden` lookup
(no handler catches it), and a normal return implies that every revision
record carried at least one of the two keys. -/
theorem C10_comment_keys_required (server : Dict → JValue)
    (pid title : String) (ys zs : List JValue) (x : JValue)
    (hserver : server (fullRevParams title) = mkRevResp pid (ys ++ x :: zs)) :
    ((∀ y ∈ ys, ∃ c, getComment y = Except.ok c) →
      getComment x = Except.error (PyErr.keyError "commenthidden") →
      all_titles server title = Except.error (PyErr.keyError "commenthidden"))
  ∧ (∀ s, all_titles server title = Except.ok s →
      ∀ y ∈ ys ++ x :: zs, ∃ o, y = JValue.obj o
        ∧ ((lookupD o "comment").isSome ∨ (lookupD o "commenthidden").isSome)) := by
  have hrev := revisions_resp server pid title (ys ++ x :: zs) hserver
  constructor
  · intro hok hx
    unfold all_titles
    rw [hrev]
    exact allTitlesLoop_firstError hok hx
  · intro s hs y hy
    unfold all_titles at hs
    rw [hrev] at hs
    obtain ⟨c, hc⟩ := allTitlesLoop_ok_implies hs y hy
    exact getComment_ok_has_key hc

/-- C10 witness: a single revision with only a timestamp (no comment keys)
makes `all_titles` raise the missing-key error. -/
theorem C10_witness :
    all_titles (fun _ => mkRevResp "9" [mkTsRev "20180101"]) "T"
      = Except.error (PyErr.keyError "commenthidden") :=
  (C10_comment_keys_required (fun _ => mkRevResp "9" [mkTsRev "20180101"])
    "9" "T" [] [] (mkTsRev "20180101") rfl).1
    (fun y hy => absurd hy (List.not_mem_nil y)) rfl

lemma dropLit_append (lit s : List Char) : dropLit lit (lit ++ s) = some s := by
  induction lit with
  | nil => rfl
  | cons c cs ih => simp [dropLit, ih]

lemma takeWhile_ne_rb (a r : List Char) (ha : ']' ∉ a) :
    (a ++ ']' :: r).takeWhile (fun c => c ≠ ']') = a := by
  induction a with
  | nil =>
    rw [List.nil_append, List.takeWhile_cons]
    simp
  | cons c cs ih =>
    have hc : c ≠ ']' := fun h => ha (h ▸ List.mem_cons_self c cs)
    have hih := ih (fun h => ha (List.mem_cons_of_mem c h))
    rw [List.cons_append, List.takeWhile_cons, if_pos (by simp [hc]), hih]

lemma matchAt_decomp (L1 L2' L3' a b post : List Char)
    (ha : a ≠ []) (han : ']' ∉ a) (hb : b ≠ []) (hbn : ']' ∉ b) :
    matchAt L1 (']' :: L2') (']' :: L3')
      (L1 ++ (a ++ (']' :: (L2' ++ (b ++ (']' :: (L3' ++ post)))))))
      = some (a, b) := by
  have hae : a.isEmpty = false := by
    cases a with
    | nil => exact absurd rfl ha
    | cons c cs => rfl
  have hbe : b.isEmpty = false := by
    cases b with
    | nil => exact absurd rfl hb
    | cons c cs => rfl
  have hd2 : dropLit (']' :: L2') (']' :: (L2' ++ (b ++ (']' :: (L3' ++ post)))))
      = some (b ++ (']' :: (L3' ++ post))) := by
    show (if ']' = ']' then dropLit L2' (L2' ++ (b ++ (']' :: (L3' ++ post)))) else none)
      = some (b ++ (']' :: (L3' ++ post)))
    rw [if_pos rfl, dropLit_append]
  have hd3 : dropLit (']' :: L3') (']' :: (L3' ++ post)) = some post := by
    show (if ']' = ']' then dropLit L3' (L3' ++ post) else none) = some post
    rw [if_pos rfl, dropLit_append]
  unfold matchAt
  rw [dropLit_append, Option.some_bind]
  simp only [takeWhile_ne_rb a _ han, hae, Bool.false_eq_true, if_false,
    List.drop_left, hd2, Option.some_bind, takeWhile_ne_rb b _ hbn, hbe, hd3]
  rfl

lemma findSome?_isSome_of_mem {α β : Type} (f : α → Option β) (l : List α)
    (x : α) (hx : x ∈ l) (hf : (f x).isSome = true) :
    (l.findSome? f).isSome = true := by
  induction l with
  | nil => cases hx
  | cons y rest ih =>
    rw [List.findSome?_cons]
    cases hy : f y with
    | some b => rfl
    | none =>
      rcases List.mem_cons.mp hx with h | h
      · subst h; rw [hy] at hf; cases hf
      · exact ih h

lemma nlBound_ge (pre rest : List Char) (hpre : '\n' ∉ pre) :
    pre.length ≤ nlBound (pre ++ rest) := by
  unfold nlBound
  induction pre with
  | nil => simp
  | cons c cs ih =>
    have hc : c ≠ '\n' := fun h => hpre (h ▸ List.mem_cons_self c cs)
    rw [List.cons_append, List.takeWhile_cons, if_pos (by simp [hc])]
    simpa using ih (fun h => hpre (List.mem_cons_of_mem c h))

lemma pyMatch_isSome (L1 L2 L3 s : List Char) (i : Nat) (hi : i ≤ nlBound s)
    (h : (matchAt L1 L2 L3 (s.drop i)).isSome = true) :
    (pyMatch L1 L2 L3 s).isSome = true := by
  unfold pyMatch
  exact findSome?_isSome_of_mem _ _ i
    (by rw [List.mem_reverse, List.mem_range]; omega) h

lemma pyMatch_of_decomp (L1 L2' L3' pre a b post : List Char)
    (hpre : '\n' ∉ pre) (ha : a ≠ []) (han : ']' ∉ a)
    (hb : b ≠ []) (hbn : ']' ∉ b) :
    (pyMatch L1 (']' :: L2') (']' :: L3')
      (pre ++ (L1 ++ (a ++ (']' :: (L2' ++ (b ++ (']' :: (L3' ++ post))))))))).isSome
      = true := by
  set tail := L1 ++ (a ++ (']' :: (L2' ++ (b ++ (']' :: (L3' ++ post)))))) with htail
  apply pyMatch_isSome _ _ _ _ pre.length (nlBound_ge pre tail hpre)
  rw [List.drop_left]
  rw [htail, matchAt_decomp L1 L2' L3' a b post ha han hb hbn]
  rfl

/-- A server whose one revision comment contains the move-log pattern with
extra trailing text after it. -/
def trailingMoveServer : Dict → JValue := fun _ =>
  mkRevResp "7"
    [JValue.obj
      [("comment", JValue.str "verschob die Seite [[A]] nach [[B]] und mehr")]]

/-- C2 counterexample: a comment matching the move-log pattern only as a
proper part (trailing ` und mehr` after the pattern) nevertheless makes
`all_titles` add both captured titles, because the patterns are wrapped in
`.*` on both sides and `re.match` does not anchor at the end of the
string.  The claimed full-string anchoring does not hold. -/
theorem C2_counterexample :
    all_titles trailingMoveServer "T" = Except.ok ["T", "A", "B"]
  ∧ "A" ∈ ["T", "A", "B"] ∧ "B" ∈ ["T", "A", "B"] :=
  ⟨rfl, by simp, by simp⟩

/-- C2 (amended): a revision comment that contains the first move-log
pattern as a proper part, with any newline-free prefix before it and any
trailing text after it, still matches (the patterns begin and end with
`.*` and `re.match` anchors only at the start), and the two titles
captured by the match are added to the result of `all_titles`. -/
theorem C2_amended_unanchored_match_adds_titles (server : Dict → JValue)
    (pid title : String) (xs : List JValue) (x : JValue) (c : String)
    (pre a b post : List Char)
    (hserver : server (fullRevParams title) = mkRevResp pid xs)
    (hall : ∀ y ∈ xs, ∃ cy, getComment y = Except.ok cy)
    (hx : x ∈ xs) (hc : getComment x = Except.ok c)
    (hdecomp : c.data = pre ++ re1L1 ++ a ++ re1L2 ++ b ++ re1L3 ++ post)
    (hpre : '\n' ∉ pre) (ha : a ≠ []) (han : ']' ∉ a)
    (hb : b ≠ []) (hbn : ']' ∉ b) :
    ∃ s g1 g2, all_titles server title = Except.ok s
      ∧ re1Match c.data = some (g1, g2)
      ∧ String.mk g1 ∈ s ∧ String.mk g2 ∈ s := by
  have hmatch : (re1Match c.data).isSome = true := by
    unfold re1Match
    rw [hdecomp]
    have e2 : re1L2 = ']' :: "] nach [[".data := rfl
    have e3 : re1L3 = ']' :: "]".data := rfl
    rw [e2, e3]
    have hassoc :
        pre ++ re1L1 ++ a ++ (']' :: "] nach [[".data) ++ b
            ++ (']' :: "]".data) ++ post
          = pre ++ (re1L1 ++ (a ++ (']' :: ("] nach [[".data
              ++ (b ++ (']' :: ("]".data ++ post))))))) := by
      simp [List.append_assoc]
    rw [hassoc]
    exact pyMatch_of_decomp re1L1 "] nach [[".data "]".data pre a b post
      hpre ha han hb hbn
  obtain ⟨⟨g1, g2⟩, hg⟩ := Option.isSome_iff_exists.mp hmatch
  have hrev := revisions_resp server pid title xs hserver
  obtain ⟨s, hs⟩ := allTitlesLoop_ok [title] hall
  have hat : all_titles server title = Except.ok s := by
    unfold all_titles
    rw [hrev]
    exact hs
  have hcap := allTitlesLoop_captures hs hx hc (Or.inl hg)
  exact ⟨s, g1, g2, hat, hg, hcap.1, hcap.2⟩

/-- C2 witness for the amended claim: the concrete trailing-text comment
matches and contributes its two captured titles. -/
theorem C2_witness :
    ∃ s g1 g2, all_titles trailingMoveServer "T" = Except.ok s
      ∧ re1Match "verschob die Seite [[A]] nach [[B]] und mehr".data
          = some (g1, g2)
      ∧ String.mk g1 ∈ s ∧ String.mk g2 ∈ s :=
  C2_amended_unanchored_match_adds_titles trailingMoveServer "7" "T"
    [JValue.obj
      [("comment", JValue.str "verschob die Seite [[A]] nach [[B]] und mehr")]]
    (JValue.obj
      [("comment", JValue.str "verschob die Seite [[A]] nach [[B]] und mehr")])
    "verschob die Seite [[A]] nach [[B]] und mehr"
    [] "A".data "B".data " und mehr".data rfl
    (by
      intro y hy
      rw [List.mem_singleton] at hy
      subst hy
      exact ⟨"verschob die Seite [[A]] nach [[B]] und mehr", rfl⟩)
    (List.mem_singleton.mpr rfl) rfl rfl
    (by simp) (by decide) (by decide) (by decide) (by decide)
